import Mathlib

/-!
# Verification of the real-time view-synchronization core

Shallow embedding of the client-side state-merge logic of the car-ads
front-end: the SignalR channel bookkeeping (`src/store/auth.store.ts` /
`src/lib/signalr.ts`), the public profile page's load/merge handlers
(`PublicUserPage` in `src/app/u/[id]/page.tsx`), the dashboard handlers,
the home page (`src/app/page.tsx`), the biography manager
(`BioManager.tsx`), the error flattener (`src/lib/errorText.ts`) and the
two price formatters.

Numbers that the source treats as JS numbers are modelled as `Nat`/`Int`
where they are integral (ids, counters) and as `ℚ` where fractional
values matter (prices).  ISO timestamps are kept as `String`, compared
with JS string comparison (lexicographic), which Lean's `String`
linear order mirrors for these ASCII timestamps.
-/

/-- A classified ad, after the shape of `type Ad` on the public profile
page and the dashboard (`type`/`gearbox` appear as `number | string` on
the home page; all payloads in the repo use the numeric form, modelled
here with `Nat`). -/
structure Ad where
  id : Nat
  userId : Nat
  type : Nat := 1
  title : String := ""
  year : Nat := 0
  color : String := ""
  mileageKm : Nat := 0
  price : ℚ := 0
  gearbox : Nat := 0
  createdAt : String := ""
  viewCount : Nat := 0
  insuranceMonths : Option Nat := none
  chassisNumber : Option String := none
  contactPhone : Option String := none
  description : Option String := none
  deriving Repr, DecidableEq

/-- A forwarded Telegram broadcast message (`type TelegramMsg`,
`src/app/page.tsx`). -/
structure TelegramMsg where
  id : Nat
  messageId : Nat := 0
  text : String := ""
  fromUsername : Option String := none
  fromFirstName : Option String := none
  receivedAt : String := ""
  telegramLink : String := ""
  deriving Repr, DecidableEq

/-- A biography entry (`type BioItem` in `BioManager.tsx`). -/
structure BioItem where
  id : Nat
  userId : Nat
  groupKey : String := ""
  isAdvanced : Bool := false
  title : String := ""
  description : String := ""
  contactInfo : Option String := none
  createdAt : Option String := none
  updatedAt : Option String := none
  deriving Repr, DecidableEq

/-! ## Public profile page: `loadAll`'s ads pipeline

`loadAll` (public profile page) filters the bulk `/api/ads` response to
the profile owner, then either moves the deep-linked ad to the front
(`highlightAdId` branch: `findIndex` / `splice` / `unshift`, applied
only when `idx > 0`) or sorts by `createdAt` descending
(`onlyThis.sort((a, b) => (a.createdAt > b.createdAt ? -1 : 1))`).

The JS array sort with that comparator keeps `a` before `b` exactly when
`a.createdAt > b.createdAt` (a tie reports `1`); this stable sort is
modelled with `List.insertionSort` over that strict relation. -/

/-- JS `<` on strings: lexicographic comparison by code unit (all
characters in the modelled data are below `0x10000`, where code-unit
and code-point comparison coincide). -/
def strLtB : List Char → List Char → Bool
  | _, [] => false
  | [], _ :: _ => true
  | a :: as, b :: bs =>
    if a.toNat < b.toNat then true
    else if b.toNat < a.toNat then false
    else strLtB as bs

def jsStrLt (a b : String) : Bool := strLtB a.data b.data

/-- Comparator of the no-highlight branch: the JS comparator returns a
negative number exactly when `a.createdAt > b.createdAt`. -/
def adBefore (a b : Ad) : Prop := jsStrLt b.createdAt a.createdAt = true

instance : DecidableRel adBefore := fun _ _ =>
  inferInstanceAs (Decidable (_ = true))

/-- `onlyThis.sort((a, b) => (a.createdAt > b.createdAt ? -1 : 1))`. -/
def sortAdsDesc (l : List Ad) : List Ad :=
  List.insertionSort adBefore l

/-- "Not older than": the pairwise relation of a recency-descending
list — `x` before `y` means `¬ (x.createdAt < y.createdAt)`. -/
def adAfterGe (x y : Ad) : Prop := jsStrLt x.createdAt y.createdAt = false

/-- The `highlightAdId` branch of `loadAll`:
`idx = findIndex(a => a.id === highlightAdId); if (idx > 0) { splice; unshift }`. -/
def moveHighlightFront (hid : Nat) (l : List Ad) : List Ad :=
  match l.findIdx? (fun a => a.id == hid) with
  | none => l
  | some idx =>
    if 0 < idx then
      match l[idx]? with
      | some item => item :: l.eraseIdx idx
      | none => l
    else l

/-- The ads part of `loadAll`: filter to the profile owner, then
highlight or sort. -/
def loadAllAds (profileId : Nat) (highlightAdId : Option Nat)
    (fetched : List Ad) : List Ad :=
  let onlyThis := fetched.filter (fun x => x.userId == profileId)
  match highlightAdId with
  | some hid => moveHighlightFront hid onlyThis
  | none => sortAdsDesc onlyThis

/-! ## Public profile page: SignalR handlers -/

/-- `CarAdCreated` handler on the public profile page: ignore foreign
profiles, no-op when the id is already present, otherwise prepend. -/
def onAdCreated (profileId : Nat) (p : Ad) (prev : List Ad) : List Ad :=
  if p.userId != profileId then prev
  else if prev.any (fun x => x.id == p.id) then prev
  else p :: prev

/-- `AdViewUpdated` handler on the public profile page: overwrite the
matching ad's `viewCount` with the pushed value. -/
def onAdView (adId viewCount : Nat) (prev : List Ad) : List Ad :=
  prev.map (fun x => if x.id == adId then { x with viewCount := viewCount } else x)

/-- `CarAdDeleted` handler on the public profile page. -/
def onAdDeleted (adId : Nat) (prev : List Ad) : List Ad :=
  prev.filter (fun x => x.id != adId)

/-! ## Dashboard handlers (`part_001`) -/

/-- Dashboard `CarAdCreatedForUser` handler:
`setAds((prev) => [ad, ...prev])` — an unconditional prepend. -/
def carAdCreatedForUser (ad : Ad) (prev : List Ad) : List Ad :=
  ad :: prev

/-- Dashboard `AdViewUpdated` handler: overwrite the matching ad's
`viewCount`, then move that ad to the front when it is not already
first. -/
def dashAdViewUpdated (adId viewCount : Nat) (prev : List Ad) : List Ad :=
  let updated := prev.map
    (fun x => if x.id == adId then { x with viewCount := viewCount } else x)
  match updated.findIdx? (fun x => x.id == adId) with
  | none => updated
  | some idx =>
    if 0 < idx then
      match updated[idx]? with
      | some item => item :: updated.eraseIdx idx
      | none => updated
    else updated

/-! ## Home page (`src/app/page.tsx`) -/

/-- `TelegramMessageReceived` handler: no-op when the message id is
already present, otherwise prepend. -/
def onTelegramMsg (msg : TelegramMsg) (prev : List TelegramMsg) : List TelegramMsg :=
  if prev.any (fun m => m.id == msg.id) then prev
  else msg :: prev

/-! ## Realtime channel manager (`src/lib/signalr.ts`)

`startSignalR` keeps one module-level `connection`.  It returns the
existing connection only when `connection.state === Connected`; in every
other situation (no connection, a previous `start()` still in flight in
the `Connecting` state, a closed connection, …) it builds a **new**
`HubConnection`, overwrites the module variable and starts it.  The
registered lifecycle callbacks (`onclose` / `onreconnecting` /
`onreconnected`, lines 108–110) only `console.log`; in particular the
`onreconnected` callback re-issues no `JoinProfile`.

A connection is modelled by the builder sequence number `cid` (how many
`HubConnectionBuilder().build()` calls preceded it) plus its transport
state; the module state records the connection slot and the number of
connections built so far. -/

inductive HubState where
  | Disconnected | Connecting | Connected | Reconnecting
  deriving Repr, DecidableEq

structure Connection where
  cid : Nat
  state : HubState
  deriving Repr, DecidableEq

structure SignalRModule where
  connection : Option Connection
  built : Nat
  deriving Repr, DecidableEq

/-- `startSignalR`, viewed at its resolution: the guard
`if (connection && connection.state === Connected) return connection;`
otherwise build a fresh `HubConnection` (sequence number `m.built`),
store it in the module variable and `await connection.start()` (the
fresh connection ends `Connected`).  The returned connection is the one
the awaited promise resolves with. -/
def startSignalR (m : SignalRModule) : Connection × SignalRModule :=
  match m.connection with
  | some c =>
    if c.state = HubState.Connected then (c, m)
    else
      let fresh : Connection := ⟨m.built, HubState.Connected⟩
      (fresh, ⟨some fresh, m.built + 1⟩)
  | none =>
      let fresh : Connection := ⟨m.built, HubState.Connected⟩
      (fresh, ⟨some fresh, m.built + 1⟩)

/-! ## Channel manager topic bookkeeping (claim C1's step relation)

`joinProfile(userId)` invokes `JoinProfile` on the hub, which adds a
server-side group subscription tied to the **current transport
connection**; the page keeps the topic active until it leaves.  A
transport-level reconnect (automatic reconnect) gives the hub a fresh
connection with no group memberships; the source's `onreconnected`
callback (auth.store.ts line 110) runs `console.log` only, so no state
transition re-issues `JoinProfile`. -/

structure ChannelState where
  /-- Topics the application holds active (joined, not left). -/
  active : List Nat
  /-- Topics the hub currently has subscribed for this transport
  connection. -/
  serverSubs : List Nat
  deriving Repr, DecidableEq

inductive ChanEvent where
  /-- `joinProfile(uid)`: `conn.invoke("JoinProfile", String(uid))`. -/
  | joinTopic (uid : Nat)
  /-- `leaveProfile(uid)`: `conn.invoke("LeaveProfile", String(uid))`. -/
  | leaveTopic (uid : Nat)
  /-- Transport drop followed by automatic reconnect; the hub loses all
  group subscriptions of the old connection, then the source's
  `onreconnected` callback runs (it only logs). -/
  | reconnect
  deriving Repr, DecidableEq

def chanStep (s : ChannelState) : ChanEvent → ChannelState
  | ChanEvent.joinTopic uid =>
      ⟨if s.active.contains uid then s.active else s.active ++ [uid],
       if s.serverSubs.contains uid then s.serverSubs else s.serverSubs ++ [uid]⟩
  | ChanEvent.leaveTopic uid =>
      ⟨s.active.filter (fun t => t != uid), s.serverSubs.filter (fun t => t != uid)⟩
  | ChanEvent.reconnect =>
      -- subscriptions do not survive the reconnect; the `onreconnected`
      -- handler in the source performs no re-join, so `serverSubs`
      -- stays empty and `active` is untouched.
      ⟨s.active, []⟩

def chanRun (evs : List ChanEvent) : ChannelState :=
  evs.foldl chanStep ⟨[], []⟩

/-! ## Public profile page lifecycle (claim C2)

The page has no buffer for events that arrive while the bulk fetch is
in flight: a `CarAdCreated` event is applied to the current `allAds`
immediately, and when `loadAll` resolves, `setAllAds(onlyThis)` replaces
the whole collection with the processed snapshot. -/

inductive PageEvent where
  | adCreated (p : Ad)
  | adView (adId viewCount : Nat)
  | adDeleted (adId : Nat)
  /-- `loadAll` resolves: `setAllAds` installs the processed snapshot. -/
  | snapshotArrived (fetched : List Ad)
  deriving Repr, DecidableEq

def pageStep (profileId : Nat) (highlightAdId : Option Nat)
    (s : List Ad) : PageEvent → List Ad
  | PageEvent.adCreated p => onAdCreated profileId p s
  | PageEvent.adView adId vc => onAdView adId vc s
  | PageEvent.adDeleted adId => onAdDeleted adId s
  | PageEvent.snapshotArrived fetched => loadAllAds profileId highlightAdId fetched

def pageRun (profileId : Nat) (highlightAdId : Option Nat)
    (evs : List PageEvent) : List Ad :=
  evs.foldl (pageStep profileId highlightAdId) []

/-! ## `loadAll` and `BioManager.load` refresh atomicity (claim C6) -/

/-- Comparator of the bio sort in `loadAll` (advanced entries first,
then `createdAt` descending); the JS comparator reports a negative
number exactly in this relation.  (The public page's bio payloads
always carry `createdAt`; the `getD` covers the dashboard variant's
optional field.) -/
def bioBefore (a b : BioItem) : Prop :=
  if a.isAdvanced ≠ b.isAdvanced then a.isAdvanced = true
  else ¬ (jsStrLt (a.createdAt.getD "") (b.createdAt.getD "") = true)

instance : DecidableRel bioBefore := fun a b => by
  unfold bioBefore; infer_instance

def sortBioList (l : List BioItem) : List BioItem :=
  List.insertionSort bioBefore l

structure PublicUser where
  id : Nat
  username : String := ""
  deriving Repr, DecidableEq

/-- The state `loadAll` touches. -/
structure PubPageState where
  user : Option PublicUser := none
  bio : List BioItem := []
  allAds : List Ad := []
  err : Option String := none
  loading : Bool := true
  deriving Repr, DecidableEq

/-- What the `Promise.all` of `loadAll` resolves with. -/
structure FetchedAll where
  user : PublicUser
  bio : List BioItem
  ads : List Ad
  deriving Repr, DecidableEq

/-- `loadAll`, from `setErr(null)`/`setLoading(true)` to the `finally`:
on resolution it installs user, sorted bio and the processed ads; on
rejection only `setErr` runs — the previously loaded collections are
untouched. -/
def loadAllRun (profileId : Nat) (highlightAdId : Option Nat)
    (s : PubPageState) (r : Except String FetchedAll) : PubPageState :=
  let s := { s with err := none, loading := true }
  match r with
  | Except.ok d =>
      { s with
        user := some d.user
        bio := sortBioList d.bio
        allAds := loadAllAds profileId highlightAdId d.ads
        loading := false }
  | Except.error e =>
      { s with err := some e, loading := false }

/-- `BioManager.load`: on resolution, `setItems` installs the fetched
list (the source first normalizes the raw payload's key casing; the
claim concerns only the rejection path, so the fetch result is modelled
as the already-normalized list); on rejection the `catch` block runs
`setItems([])` before surfacing a toast — the prior collection is
cleared. -/
def bioManagerLoad (_prev : List BioItem)
    (r : Except String (List BioItem)) : List BioItem :=
  match r with
  | Except.ok fetched => fetched
  | Except.error _ =>
      -- `catch (e) { setItems([]); toast.error(...) }`
      []

/-! ## Home page `handleViewClick` (claim C8)

```
setFlashCounts(prev => ({...prev, [ad.id]: (prev[ad.id] ?? 0) + 1}));
try {
  const res = await api.post(`/api/ads/${ad.id}/view`);
  const newCount = res.data?.viewCount ?? Number(ad.viewCount) + 1;
  setAds(prev => prev.map(x => x.id === ad.id ? {...x, viewCount: newCount} : x));
} catch (e) { logError(...); }
await new Promise(r => setTimeout(r, 700));
router.push(`/u/${ad.userId}?ad=${ad.id}`);
```

The handler is split at its suspension point: `viewClickSync` is
everything that runs before the `await api.post(...)` resolves (only the
flash counter changes), `viewClickSettle` is the continuation once the
POST settles (update `ads` on success, swallow the error on failure,
then navigate in either case). -/

structure HomeState where
  ads : List Ad
  flashCounts : Nat → Nat
  navigatedTo : Option (Nat × Nat) := none

/-- Outcome of `api.post(.../view)`: resolution with an optional
`viewCount` in the body, or rejection. -/
inductive PostOutcome where
  | ok (viewCount : Option Nat)
  | err
  deriving Repr, DecidableEq

/-- The part of `handleViewClick` that runs before the POST response
arrives. -/
def viewClickSync (ad : Ad) (s : HomeState) : HomeState :=
  { s with flashCounts :=
      fun i => if i = ad.id then s.flashCounts ad.id + 1 else s.flashCounts i }

/-- The continuation of `handleViewClick` once the POST settles. -/
def viewClickSettle (ad : Ad) (outcome : PostOutcome) (s : HomeState) : HomeState :=
  let s :=
    match outcome with
    | PostOutcome.ok vc =>
        let newCount := vc.getD (ad.viewCount + 1)
        { s with ads := s.ads.map fun (x : Ad) =>
            if x.id == ad.id then { x with viewCount := newCount } else x }
    | PostOutcome.err => s
  { s with navigatedTo := some (ad.userId, ad.id) }

/-! ## `errorToText` (`src/lib/errorText.ts`)

The function branches on the shape of `err.response?.data`: a plain
string is returned as is; an array is flattened element-wise (strings
kept, anything else `JSON.stringify`-ed) and joined with newlines; an
object is treated as an ASP.NET problem object (`title`/`detail`,
optionally an `errors` map of field name to message list, both in
camelCase or PascalCase); anything else falls back to `err.message`,
`err.toString()` or a fixed Persian message.

The value space is the backend's error contract: field values inside
`errors` are message arrays or single strings (the source's remaining
`JSON.stringify(v)` arm is unreachable on that contract).  JS string
escaping inside `stringifyErrData` is elided (no modelled string
contains a quote). -/

/-- A field value inside a problem object's `errors` map. -/
inductive FieldVal where
  | msgs (xs : List String)
  | msg (s : String)
  deriving Repr, DecidableEq

/-- The camelCase/PascalCase keyed fields of a problem object. -/
structure ProblemObj where
  title : Option String := none
  titleP : Option String := none
  detail : Option String := none
  detailP : Option String := none
  errors : Option (List (String × FieldVal)) := none
  errorsP : Option (List (String × FieldVal)) := none
  deriving Repr, DecidableEq

/-- The shape of `err.response?.data`. `absent` covers `undefined` and
`null` (both fail the `data && typeof data === "object"` guard). -/
inductive ErrData where
  | absent
  | str (s : String)
  | arr (xs : List ErrData)
  | obj (o : ProblemObj)

/-- The whole error value handed to `errorToText`. -/
structure JsError where
  responseData : ErrData := ErrData.absent
  message : Option String := none
  toStringVal : Option String := none

mutual
/-- `JSON.stringify` restricted to the modelled value space (escaping
elided; `undefined` inside an array serializes as `null`). -/
def stringifyErrData : ErrData → String
  | ErrData.absent => "null"
  | ErrData.str s => "\"" ++ s ++ "\""
  | ErrData.arr xs => "[" ++ String.intercalate "," (stringifyErrList xs) ++ "]"
  | ErrData.obj _ => "\x7b…\x7d"

def stringifyErrList : List ErrData → List String
  | [] => []
  | x :: xs => stringifyErrData x :: stringifyErrList xs
end

/-- The value of a JS `a || b` chain over possibly-missing strings,
collapsed to `none` when the chain result is falsy — exactly how both
consumers use it (`filter(Boolean)` and `if (msg)`). -/
def truthyOr (a b : Option String) : Option String :=
  match a with
  | some s => if s ≠ "" then some s else
      match b with
      | some t => if t ≠ "" then some t else none
      | none => none
  | none =>
      match b with
      | some t => if t ≠ "" then some t else none
      | none => none

/-- `[x, y, z].filter(Boolean).join("\n")` over collapsed options. -/
def joinTruthy (parts : List (Option String)) : String :=
  String.intercalate "\n" (parts.filterMap id)

/-- One `k: …` line of the `errors` map. -/
def fieldLine : String × FieldVal → String
  | (k, FieldVal.msgs xs) => k ++ ": " ++ String.intercalate " | " xs
  | (k, FieldVal.msg s) => k ++ ": " ++ s

def errorToText (err : JsError) : String :=
  match err.responseData with
  | ErrData.str s => s
  | ErrData.arr xs =>
      String.intercalate "\n"
        (xs.map fun x =>
          match x with
          | ErrData.str s => s
          | v => stringifyErrData v)
  | ErrData.obj o =>
      let title := truthyOr o.title o.titleP
      let detail := truthyOr o.detail o.detailP
      match o.errors.or o.errorsP with
      | some errs =>
          let errText := String.intercalate "\n" (errs.map fieldLine)
          joinTruthy [title, detail,
            if errText ≠ "" then some errText else none]
      | none =>
          let msg := joinTruthy [title, detail]
          if msg ≠ "" then msg else stringifyErrData (ErrData.obj o)
  | ErrData.absent =>
      match truthyOr err.message err.toStringVal with
      | some m => m
      | none => "خطای نامشخص. لطفاً دوباره تلاش کنید."

/-! ## The price formatters (claim C10)

Prices are entered in millions of toman and may be fractional; they are
modelled as `ℚ`.  `Math.floor` is `Int.floor`; JS `Math.round` (ties
toward `+∞`) is `⌊x + 1/2⌋`.  `x.toLocaleString("fa-IR")` renders a
nonnegative integer with Extended Arabic-Indic digits (U+06F0–U+06F9)
grouped in threes by the Arabic thousands separator U+066C; `toFa`
implements that rendering, shared by both formatters exactly as both
source functions share the locale. -/

def jsRound (q : ℚ) : ℤ := ⌊q + 1/2⌋

/-- Decimal digits, least significant first; structural recursion on a
fuel bound so the definition evaluates by kernel reduction. -/
def natDigitsRevAux : Nat → Nat → List Nat
  | 0, m => [m]
  | fuel + 1, m => if m < 10 then [m] else m % 10 :: natDigitsRevAux fuel (m / 10)

/-- Decimal digits of `n`, least significant first. -/
def natDigitsRev (n : Nat) : List Nat := natDigitsRevAux n n

/-- An Extended Arabic-Indic digit. -/
def faDigitChar (d : Nat) : Char := Char.ofNat (0x6F0 + d)

/-- Insert the thousands separator after every three digits
(least-significant-first digit list). -/
def sepEvery3 : List Char → List Char
  | a :: b :: c :: d :: rest => a :: b :: c :: '٬' :: sepEvery3 (d :: rest)
  | l => l

/-- `n.toLocaleString("fa-IR")` for a nonnegative integer. -/
def toFa (n : Nat) : String :=
  String.mk (sepEvery3 ((natDigitsRev n).map faDigitChar)).reverse

/-- JS `String.prototype.includes`. -/
def includesStr (needle hay : String) : Bool :=
  decide (needle.data <:+: hay.data)

/-- Shared decomposition of a price (in millions) into billion /
million / thousand parts, as both formatters compute it. -/
def pBillion (v : ℚ) : ℤ := ⌊v / 1000⌋
def pRem (v : ℚ) : ℚ := v - pBillion v * 1000
def pMillion (v : ℚ) : ℤ := ⌊pRem v⌋
def pThousand (v : ℚ) : ℤ := jsRound ((pRem v - pMillion v) * 1000)

/-- `priceToText` (identical copies in `src/lib/errorText.ts`'s page
module and on the home page): guard non-positive input, decompose, emit
the nonzero parts, join with « و » and append « تومان ». -/
def priceToText (millionVal : ℚ) : String :=
  if millionVal ≤ 0 then "—"
  else
    let billion := pBillion millionVal
    let million := pMillion millionVal
    let thousand := pThousand millionVal
    let parts : List String :=
      (if billion > 0 then [toFa billion.toNat ++ " میلیارد"] else []) ++
      (if million > 0 then [toFa million.toNat ++ " میلیون"] else []) ++
      (if thousand > 0 then [toFa thousand.toNat ++ " هزار"] else [])
    if parts = [] then "—"
    else String.intercalate " و " parts ++ " تومان"

/-- The home page copy of `priceToText` (`src/app/page.tsx`); the body
is the same modulo the redundant `Number(v)` coercion. -/
def priceToTextHome (v : ℚ) : String :=
  if v ≤ 0 then "—"
  else
    let billion := pBillion v
    let million := pMillion v
    let thousand := pThousand v
    let parts : List String :=
      (if billion > 0 then [toFa billion.toNat ++ " میلیارد"] else []) ++
      (if million > 0 then [toFa million.toNat ++ " میلیون"] else []) ++
      (if thousand > 0 then [toFa thousand.toNat ++ " هزار"] else [])
    if parts = [] then "—"
    else String.intercalate " و " parts ++ " تومان"

/-- `formatFromMillionInput` (`AddAdModal`): same decomposition but with
sign handling, an explicit carry of a rounded-up thousand into the
million (and on into the billion) place, a « تومان » already attached to
the thousand part, a `"۰ تومان"` fallback, and a final `includes`-guarded
« تومان » append. -/
def formatFromMillionInput (v : ℚ) : String :=
  let sign := if v < 0 then "-" else ""
  let a := |v|
  let billion := pBillion a
  let million := pMillion a
  let thousand := pThousand a
  let tCarry := thousand ≥ 1000
  let thousand := if tCarry then thousand - 1000 else thousand
  let millionAdj := if tCarry then million + 1 else million
  let mCarry := millionAdj ≥ 1000
  let extraB := if mCarry then ⌊(millionAdj : ℚ) / 1000⌋ else 0
  let billionAdj := billion + extraB
  let millionAdj := millionAdj - extraB * 1000
  let parts : List String :=
    (if billionAdj > 0 then [toFa billionAdj.toNat ++ " میلیارد"] else []) ++
    (if millionAdj > 0 then [toFa millionAdj.toNat ++ " میلیون"] else []) ++
    (if thousand > 0 then [toFa thousand.toNat ++ " هزار تومان"] else [])
  if parts = [] then "۰ تومان"
  else
    let joined := String.intercalate " و " parts
    let last := parts.getLastD ""
    if includesStr "تومان" last then sign ++ joined
    else sign ++ joined ++ " تومان"

/-! ## Concrete sample data used by counterexamples and witnesses -/

/-- Ads of profile 7, `createdAt` strictly decreasing from `adA` down to
`adD` (so `[adA, adB, adC, adD]` is recency-ordered). -/
def adA : Ad := { id := 1, userId := 7, createdAt := "2024-01-04T10:00:00Z", viewCount := 5 }

def adB : Ad := { id := 2, userId := 7, createdAt := "2024-01-03T10:00:00Z", viewCount := 1 }

def adC : Ad := { id := 3, userId := 7, createdAt := "2024-01-02T10:00:00Z", viewCount := 2 }

def adD : Ad := { id := 4, userId := 7, createdAt := "2024-01-01T10:00:00Z", viewCount := 3 }

/-- An ad created by another session while the bulk fetch is in flight
(newer than the snapshot contents). -/
def adNew : Ad := { id := 9, userId := 7, createdAt := "2024-01-05T10:00:00Z", viewCount := 0 }

def bioA : BioItem := { id := 1, userId := 7, description := "bio one" }

def tgA : TelegramMsg := { id := 1, messageId := 100, text := "hello" }

/-- Module state while a first `startSignalR` call's `start()` is still
in flight: one connection built (sequence number 0), in `Connecting`. -/
def connectingModule : SignalRModule := ⟨some ⟨0, HubState.Connecting⟩, 1⟩

/-- A home-page state holding `adA` with no flashes yet. -/
def homeS0 : HomeState := { ads := [adA], flashCounts := fun _ => 0 }

/-! # Theorems -/

/-- **C1.** The claim: after `startSignalR` and `joinProfile`, every
transport-level reconnect is followed by a re-issued `JoinProfile` for
every active topic — equivalently, a state "connected after reconnect
with a previously active topic not re-joined" is never reachable.  The
code violates this: the `onreconnected` callback (auth.store.ts line
110) only logs, so after the two-event trace `joinProfile 7; reconnect`
the manager holds topic 7 active while the hub has no subscription for
it — the claimed-unreachable state is reached. -/
theorem C1_reconnect_drops_active_subscription :
    (chanRun [ChanEvent.joinTopic 7, ChanEvent.reconnect]).active = [7] ∧
    (chanRun [ChanEvent.joinTopic 7, ChanEvent.reconnect]).serverSubs = [] := by
  decide

/-- **C2.** The claim: an event arriving after handlers are registered
but before the first snapshot is installed is buffered and replayed, so
snapshot `[A, B]` plus an in-flight create of `C` yields `{A, B, C}`.
The code has no buffer: the `CarAdCreated` handler prepends `adNew` to
the live collection, and when `loadAll` resolves, `setAllAds(onlyThis)`
replaces the collection with the fetched snapshot — `adNew` is lost and
the result is exactly `[adA, adB]`. -/
theorem C2_snapshot_overwrites_inflight_create :
    pageRun 7 none
        [PageEvent.adCreated adNew, PageEvent.snapshotArrived [adA, adB]] =
      [adA, adB] ∧
    adNew ∉ pageRun 7 none
        [PageEvent.adCreated adNew, PageEvent.snapshotArrived [adA, adB]] := by
  decide

/-- **C3 counterexample.** The claim predicts that after counter events
`6` then `4` on an ad with stored count `5`, the stored value is
`max (5, 6, 4) = 6`.  The `AdViewUpdated` handler has no `>=` guard: the
stale `4` overwrites, so the stored value is `4`, not the max. -/
theorem C3_counterexample_stale_value_overwrites :
    (onAdView 1 4 (onAdView 1 6 [adA])).map Ad.viewCount = [4] ∧
    [4] ≠ [max adA.viewCount (max 6 4)] := by
  decide

/-- Overwriting the `viewCount` field twice keeps only the second
value. -/
theorem viewUpdate_comp (i v w : Nat) :
    ((fun x : Ad => if x.id == i then { x with viewCount := v } else x) ∘
      fun x : Ad => if x.id == i then { x with viewCount := w } else x) =
    fun x : Ad => if x.id == i then { x with viewCount := v } else x := by
  funext x
  by_cases h : (x.id == i) = true
  · simp [Function.comp, h]
  · simp [Function.comp, h]

/-- Applying the public-page `AdViewUpdated` handler twice for the same
id keeps only the second value. -/
theorem onAdView_overwrite (i v w : Nat) (l : List Ad) :
    onAdView i v (onAdView i w l) = onAdView i v l := by
  unfold onAdView
  rw [List.map_map, viewUpdate_comp]

/-- Every element the dashboard `AdViewUpdated` handler emits comes from
the field-updated intermediate list. -/
theorem dashAdViewUpdated_mem (adId vc : Nat) (prev : List Ad) :
    ∀ x ∈ dashAdViewUpdated adId vc prev,
      x ∈ prev.map
        (fun y => if y.id == adId then { y with viewCount := vc } else y) := by
  intro x hx
  simp only [dashAdViewUpdated] at hx
  split at hx
  · exact hx
  · split at hx
    · split at hx
      · rename_i item hget
        rcases List.mem_cons.mp hx with rfl | hmem
        · exact List.getElem?_mem hget
        · exact (List.eraseIdx_sublist _ _).mem hmem
      · exact hx
    · exact hx

/-- **C3 amended.** Counter updates are last-write-wins, not monotonic:
after a sequence of `AdViewUpdated` events for one id, the stored
`viewCount` equals the **last** delivered value regardless of its size
(the public-page handler sequence collapses to its final event), and the
dashboard handler likewise stores exactly the delivered value on the
matching ad. -/
theorem C3_amended_counter_last_write_wins (i v : Nat) (vs : List Nat)
    (prev : List Ad) (adId vc : Nat) :
    (List.foldl (fun s u => onAdView i u s) prev (vs ++ [v]) =
      onAdView i v prev) ∧
    (∀ x ∈ dashAdViewUpdated adId vc prev, x.id = adId → x.viewCount = vc) := by
  constructor
  · induction vs generalizing prev with
    | nil => rfl
    | cons u t ih =>
      calc List.foldl (fun s u => onAdView i u s) prev ((u :: t) ++ [v])
          = List.foldl (fun s u => onAdView i u s) (onAdView i u prev) (t ++ [v]) := rfl
        _ = onAdView i v (onAdView i u prev) := ih (onAdView i u prev)
        _ = onAdView i v prev := onAdView_overwrite i v u prev
  · intro x hx hid
    have hmem := dashAdViewUpdated_mem adId vc prev x hx
    rcases List.mem_map.mp hmem with ⟨y, _, hy⟩
    by_cases h : (y.id == adId) = true
    · rw [if_pos h] at hy; rw [← hy]
    · rw [if_neg h] at hy
      subst hy
      exact absurd hid (by simpa using h)

/-- **C3 witness.** The amended claim at a concrete input: events
`[6, 4]` on `[adA]` collapse to the final event, and the dashboard
handler stores `9` on the matching ad. -/
theorem C3_amended_witness :
    (List.foldl (fun s u => onAdView 1 u s) [adA] ([6] ++ [4]) =
      onAdView 1 4 [adA]) ∧
    ({ adA with viewCount := 9 } : Ad).viewCount = 9 :=
  ⟨(C3_amended_counter_last_write_wins 1 4 [6] [adA] 1 9).1,
   (C3_amended_counter_last_write_wins 1 4 [6] [adA] 1 9).2
     { adA with viewCount := 9 } (by decide) (by decide)⟩

/-- **C4 counterexample.** The dashboard `CarAdCreatedForUser` handler
prepends unconditionally: applying it twice with the same ad yields two
entries for that id, not one — the claim fails for this handler. -/
theorem C4_counterexample_dashboard_create_duplicates :
    carAdCreatedForUser adA (carAdCreatedForUser adA []) = [adA, adA] ∧
    (carAdCreatedForUser adA (carAdCreatedForUser adA [])).countP
      (fun x => x.id == adA.id) ≠ 1 := by
  decide

/-- **C4 amended.** Create is idempotent for the public profile's
`CarAdCreated` handler and the home page's `TelegramMessageReceived`
handler (a second application with the same id is a no-op, and a create
into an id-free collection yields exactly one entry for that id), but
**not** for the dashboard's `CarAdCreatedForUser` handler, which
prepends unconditionally. -/
theorem C4_amended_create_idempotent_except_dashboard
    (pid : Nat) (p : Ad) (l : List Ad) (m : TelegramMsg) (tl : List TelegramMsg) :
    (onAdCreated pid p (onAdCreated pid p l) = onAdCreated pid p l) ∧
    (onTelegramMsg m (onTelegramMsg m tl) = onTelegramMsg m tl) ∧
    (p.userId = pid → l.countP (fun x => x.id == p.id) = 0 →
      (onAdCreated pid p l).countP (fun x => x.id == p.id) = 1) ∧
    (tl.countP (fun x => x.id == m.id) = 0 →
      (onTelegramMsg m tl).countP (fun x => x.id == m.id) = 1) ∧
    (carAdCreatedForUser p (carAdCreatedForUser p l) = p :: p :: l) := by
  refine ⟨?_, ?_, ?_, ?_, rfl⟩
  · by_cases h : (p.userId != pid) = true
    · simp [onAdCreated, h]
    · by_cases h2 : (l.any fun x => x.id == p.id) = true
      · simp [onAdCreated, h, h2]
      · simp [onAdCreated, h, h2]
  · by_cases h2 : (tl.any fun x => x.id == m.id) = true
    · simp [onTelegramMsg, h2]
    · simp [onTelegramMsg, h2]
  · intro hpid hcount
    have hany : (l.any fun x => x.id == p.id) = false := by
      rw [List.any_eq_false]
      intro x hx
      have := List.countP_eq_zero.mp hcount x hx
      simpa using this
    simp [onAdCreated, hpid, hany, List.countP_cons, hcount]
  · intro hcount
    have hany : (tl.any fun x => x.id == m.id) = false := by
      rw [List.any_eq_false]
      intro x hx
      have := List.countP_eq_zero.mp hcount x hx
      simpa using this
    simp [onTelegramMsg, hany, List.countP_cons, hcount]

/-- **C4 witness.** The amended claim at concrete inputs: re-delivering
`adA` to the public-page handler and `tgA` to the telegram handler is a
no-op and each collection holds exactly one entry for the id, while the
dashboard handler duplicates. -/
theorem C4_amended_witness :
    (onAdCreated 7 adA (onAdCreated 7 adA []) = onAdCreated 7 adA []) ∧
    (onTelegramMsg tgA (onTelegramMsg tgA []) = onTelegramMsg tgA []) ∧
    ((onAdCreated 7 adA []).countP (fun x => x.id == adA.id) = 1) ∧
    ((onTelegramMsg tgA []).countP (fun x => x.id == tgA.id) = 1) ∧
    (carAdCreatedForUser adA (carAdCreatedForUser adA []) = adA :: adA :: []) :=
  ⟨(C4_amended_create_idempotent_except_dashboard 7 adA [] tgA []).1,
   (C4_amended_create_idempotent_except_dashboard 7 adA [] tgA []).2.1,
   (C4_amended_create_idempotent_except_dashboard 7 adA [] tgA []).2.2.1
     (by decide) (by decide),
   (C4_amended_create_idempotent_except_dashboard 7 adA [] tgA []).2.2.2.1
     (by decide),
   (C4_amended_create_idempotent_except_dashboard 7 adA [] tgA []).2.2.2.2⟩

/-- **C5 counterexample.** `startSignalR` called while a previous
attempt is still in flight (`Connecting`) does **not** await it: it
builds and starts a second `HubConnection` (the built-count rises from 1
to 2) and resolves with that new connection (sequence number 1, not the
in-flight 0). -/
theorem C5_counterexample_second_connection_while_connecting :
    (startSignalR connectingModule).1.cid = 1 ∧
    (startSignalR connectingModule).2.built = 2 ∧
    (startSignalR connectingModule).1.cid ≠ 0 := by
  decide

/-- **C5 amended.** `startSignalR` is idempotent only in the
`Connected` state, where it returns the existing connection and leaves
the module untouched; in every other state (no connection, or a
previous attempt still `Connecting`) it builds and starts a fresh
`HubConnection` instead of awaiting the in-flight attempt. -/
theorem C5_amended_idempotent_only_when_connected
    (m : SignalRModule) (c : Connection) :
    (m.connection = some c → c.state = HubState.Connected →
      startSignalR m = (c, m)) ∧
    ((∀ c', m.connection = some c' → c'.state ≠ HubState.Connected) →
      (startSignalR m).1 = ⟨m.built, HubState.Connected⟩ ∧
      (startSignalR m).2.built = m.built + 1) := by
  constructor
  · intro h hc
    simp [startSignalR, h, hc]
  · intro h
    rcases hm : m.connection with _ | c'
    · simp [startSignalR, hm]
    · have hne := h c' hm
      simp [startSignalR, hm, hne]

/-- **C5 witness.** The amended claim at concrete inputs: a `Connected`
module is returned unchanged, and the `Connecting` module gets a second
build. -/
theorem C5_amended_witness :
    (startSignalR ⟨some ⟨0, HubState.Connected⟩, 1⟩ =
      (⟨0, HubState.Connected⟩, ⟨some ⟨0, HubState.Connected⟩, 1⟩)) ∧
    ((startSignalR connectingModule).1 = ⟨1, HubState.Connected⟩ ∧
      (startSignalR connectingModule).2.built = 2) :=
  ⟨(C5_amended_idempotent_only_when_connected
      ⟨some ⟨0, HubState.Connected⟩, 1⟩ ⟨0, HubState.Connected⟩).1 rfl rfl,
   (C5_amended_idempotent_only_when_connected
      connectingModule ⟨0, HubState.Connecting⟩).2
     (by intro c' h; cases h; decide)⟩

/-- **C6 counterexample.** `BioManager.load` is not atomic on failure:
with a previously loaded collection `[bioA]`, a rejected re-fetch runs
`setItems([])` in the `catch` block, clearing the prior snapshot instead
of leaving it in place. -/
theorem C6_counterexample_bio_refresh_clears_snapshot :
    bioManagerLoad [bioA] (Except.error "network error") = [] ∧
    ([bioA] : List BioItem) ≠ [] := by
  decide

/-- **C6 amended.** A failed refresh is atomic for the public profile's
`loadAll` — on rejection the previously loaded user, bio and ads are
unchanged and only the error message is set — but **not** for
`BioManager.load`, which clears its collection to `[]` on rejection. -/
theorem C6_amended_loadAll_atomic_bioManager_clears
    (pid : Nat) (hl : Option Nat) (s : PubPageState) (msg : String)
    (prev : List BioItem) :
    (loadAllRun pid hl s (Except.error msg)).allAds = s.allAds ∧
    (loadAllRun pid hl s (Except.error msg)).bio = s.bio ∧
    (loadAllRun pid hl s (Except.error msg)).user = s.user ∧
    (loadAllRun pid hl s (Except.error msg)).err = some msg ∧
    bioManagerLoad prev (Except.error msg) = [] :=
  ⟨rfl, rfl, rfl, rfl, rfl⟩

/-- **C8 counterexample.** Before the `POST /api/ads/{id}/view` response
arrives, the clicked ad's displayed `viewCount` is **not** bumped: the
only immediate state change of `handleViewClick` is the flash-animation
counter, while `ads` (and hence the displayed count, still 5) is
untouched and navigation has not happened. -/
theorem C8_counterexample_no_immediate_count_bump :
    (viewClickSync adA homeS0).ads = [adA] ∧
    adA.viewCount = 5 ∧
    (viewClickSync adA homeS0).flashCounts adA.id = 1 ∧
    (viewClickSync adA homeS0).navigatedTo = none :=
  ⟨rfl, rfl, rfl, rfl⟩

/-- **C8 amended.** `handleViewClick` immediately bumps only the
flash counter (ads and navigation untouched); the ad's `viewCount` is
updated only after the POST resolves, to the server's count or to
`ad.viewCount + 1` when the body carries none; the error path leaves
`ads` unchanged; and navigation to the owner's profile happens after the
POST settles, on success and failure alike. -/
theorem C8_amended_flash_then_settle_then_navigate
    (ad : Ad) (s : HomeState) (o : PostOutcome) (vc : Nat) :
    (viewClickSync ad s).ads = s.ads ∧
    (viewClickSync ad s).navigatedTo = s.navigatedTo ∧
    (viewClickSync ad s).flashCounts ad.id = s.flashCounts ad.id + 1 ∧
    (viewClickSettle ad o s).navigatedTo = some (ad.userId, ad.id) ∧
    (viewClickSettle ad PostOutcome.err s).ads = s.ads ∧
    ((viewClickSettle ad (PostOutcome.ok (some vc)) s).ads =
      s.ads.map fun x => if x.id == ad.id then { x with viewCount := vc } else x) ∧
    ((viewClickSettle ad (PostOutcome.ok none) s).ads =
      s.ads.map fun x =>
        if x.id == ad.id then { x with viewCount := ad.viewCount + 1 } else x) := by
  refine ⟨rfl, rfl, ?_, ?_, rfl, rfl, rfl⟩
  · simp [viewClickSync]
  · cases o <;> rfl

/-- JS string `<` is asymmetric. -/
theorem strLtB_asymm : ∀ x y, strLtB x y = true → strLtB y x = false := by
  intro x
  induction x with
  | nil =>
    intro y h
    cases y with
    | nil => simp [strLtB] at h
    | cons b bs => simp [strLtB]
  | cons a as ih =>
    intro y h
    cases y with
    | nil => simp [strLtB] at h
    | cons b bs =>
      simp only [strLtB] at h ⊢
      by_cases h1 : a.toNat < b.toNat
      · rw [if_neg (show ¬ b.toNat < a.toNat by omega), if_pos h1]
      · rw [if_neg h1] at h
        by_cases h2 : b.toNat < a.toNat
        · rw [if_pos h2] at h
          exact absurd h (by simp)
        · rw [if_neg h2] at h
          rw [if_neg h2, if_neg h1]
          exact ih bs h

/-- The negation of JS string `<` is transitive. -/
theorem strLtB_neg_trans :
    ∀ x y z, strLtB x y = false → strLtB y z = false → strLtB x z = false := by
  intro x
  induction x with
  | nil =>
    intro y z hxy hyz
    cases z with
    | nil => rfl
    | cons c cs =>
      cases y with
      | nil => simp [strLtB] at hyz
      | cons b bs => simp [strLtB] at hxy
  | cons a as ih =>
    intro y z hxy hyz
    cases z with
    | nil => rfl
    | cons c cs =>
      cases y with
      | nil => simp [strLtB] at hyz
      | cons b bs =>
        simp only [strLtB] at hxy hyz ⊢
        by_cases hab : a.toNat < b.toNat
        · rw [if_pos hab] at hxy; exact absurd hxy (by simp)
        · rw [if_neg hab] at hxy
          by_cases hbc : b.toNat < c.toNat
          · rw [if_pos hbc] at hyz; exact absurd hyz (by simp)
          · rw [if_neg hbc] at hyz
            have hac : ¬ a.toNat < c.toNat := by omega
            rw [if_neg hac]
            by_cases hca : c.toNat < a.toNat
            · rw [if_pos hca]
            · rw [if_neg hca]
              have hba : ¬ b.toNat < a.toNat := by omega
              have hcb : ¬ c.toNat < b.toNat := by omega
              rw [if_neg hba] at hxy
              rw [if_neg hcb] at hyz
              exact ih bs cs hxy hyz

theorem adAfterGe_of_before {a b : Ad} (h : adBefore a b) : adAfterGe a b :=
  strLtB_asymm b.createdAt.data a.createdAt.data h

theorem adAfterGe_trans {a b c : Ad}
    (h1 : adAfterGe a b) (h2 : adAfterGe b c) : adAfterGe a c :=
  strLtB_neg_trans a.createdAt.data b.createdAt.data c.createdAt.data h1 h2

theorem adAfterGe_of_not_before {a b : Ad} (h : ¬ adBefore a b) : adAfterGe b a := by
  unfold adBefore at h
  unfold adAfterGe
  exact Bool.not_eq_true _ ▸ Bool.eq_false_iff.mpr (fun hc => h hc)

/-- Inserting into a recency-descending list keeps it descending. -/
theorem pairwise_orderedInsert_adAfterGe (a : Ad) :
    ∀ l : List Ad, l.Pairwise adAfterGe →
      (l.orderedInsert adBefore a).Pairwise adAfterGe := by
  intro l hl
  induction l with
  | nil => simp [List.orderedInsert]
  | cons b t ih =>
    rw [List.orderedInsert]
    rcases List.pairwise_cons.mp hl with ⟨hb, ht⟩
    by_cases hab : adBefore a b
    · rw [if_pos hab]
      refine List.pairwise_cons.mpr ⟨?_, hl⟩
      intro c hc
      rcases List.mem_cons.mp hc with rfl | hcmem
      · exact adAfterGe_of_before hab
      · exact adAfterGe_trans (adAfterGe_of_before hab) (hb c hcmem)
    · rw [if_neg hab]
      refine List.pairwise_cons.mpr ⟨?_, ih ht⟩
      intro c hc
      rcases (List.mem_orderedInsert adBefore).mp hc with rfl | hcmem
      · exact adAfterGe_of_not_before hab
      · exact hb c hcmem

/-- The `loadAll` sort yields a recency-descending list. -/
theorem pairwise_sortAdsDesc (l : List Ad) :
    (sortAdsDesc l).Pairwise adAfterGe := by
  unfold sortAdsDesc
  induction l with
  | nil => simp [List.insertionSort]
  | cons a t ih =>
    rw [List.insertionSort]
    exact pairwise_orderedInsert_adAfterGe a _ ih

/-- The highlight splice at a positive index: with the designated item
at position `l1.length` (no earlier element carries the id, and the
index is positive), `moveHighlightFront` moves exactly that item to the
front and keeps every other element in its relative order. -/
theorem moveHighlightFront_decomp (hid : Nat) (item : Ad) (l1 l2 : List Ad)
    (hitem : item.id = hid) (hl1 : ∀ a ∈ l1, a.id ≠ hid) (hne : l1 ≠ []) :
    moveHighlightFront hid (l1 ++ item :: l2) = item :: (l1 ++ l2) := by
  have h1 : l1.findIdx? (fun a => a.id == hid) = none := by
    rw [List.findIdx?_eq_none_iff]
    intro x hx
    simpa using hl1 x hx
  have h2 : (item :: l2).findIdx? (fun a => a.id == hid) = some 0 := by
    simp [List.findIdx?_cons, hitem]
  have hfind : (l1 ++ item :: l2).findIdx? (fun a => a.id == hid) =
      some l1.length := by
    rw [List.findIdx?_append, h1, h2]
    simp
  have hpos : 0 < l1.length := List.length_pos.mpr hne
  have hget : (l1 ++ item :: l2)[l1.length]? = some item := by
    rw [List.getElem?_append_right (Nat.le_refl _)]
    simp
  have herase : (l1 ++ item :: l2).eraseIdx l1.length = l1 ++ l2 := by
    rw [List.eraseIdx_append_of_length_le (Nat.le_refl _)]
    simp
  simp only [moveHighlightFront, hfind, hget, herase, if_pos hpos]

/-- **C7.** On the public profile page: with no highlight id, `loadAll`
displays the owner's ads ordered by `createdAt` descending (a
recency-descending permutation of the filtered fetch); with a highlight
id present, exactly the designated ad moves to the front while the
relative order of all other ads is preserved; concretely, highlighting
`adB` in the recency-ordered `[adA, adB, adC, adD]` yields
`[adB, adA, adC, adD]`. -/
theorem C7_sort_desc_and_highlight_to_front
    (pid : Nat) (fetched : List Ad) (hid : Nat) (item : Ad) (l1 l2 : List Ad) :
    ((loadAllAds pid none fetched).Pairwise adAfterGe ∧
      (loadAllAds pid none fetched).Perm
        (fetched.filter fun x => x.userId == pid)) ∧
    (item.id = hid → (∀ a ∈ l1, a.id ≠ hid) → l1 ≠ [] →
      moveHighlightFront hid (l1 ++ item :: l2) = item :: (l1 ++ l2)) ∧
    loadAllAds 7 (some 2) [adA, adB, adC, adD] = [adB, adA, adC, adD] := by
  refine ⟨⟨pairwise_sortAdsDesc _, List.perm_insertionSort adBefore _⟩,
    moveHighlightFront_decomp hid item l1 l2, by decide⟩

/-- **C7 witness.** The theorem applied at concrete inputs: the sorted
branch on a shuffled fetch, and the highlight splice on
`[adA] ++ adB :: [adC, adD]`. -/
theorem C7_witness :
    ((loadAllAds 7 none [adC, adA, adD, adB]).Pairwise adAfterGe ∧
      (loadAllAds 7 none [adC, adA, adD, adB]).Perm
        ([adC, adA, adD, adB].filter fun x => x.userId == 7)) ∧
    moveHighlightFront 2 ([adA] ++ adB :: [adC, adD]) =
      adB :: ([adA] ++ [adC, adD]) ∧
    loadAllAds 7 (some 2) [adA, adB, adC, adD] = [adB, adA, adC, adD] :=
  ⟨(C7_sort_desc_and_highlight_to_front 7 [adC, adA, adD, adB]
      2 adB [adA] [adC, adD]).1,
   (C7_sort_desc_and_highlight_to_front 7 [adC, adA, adD, adB]
      2 adB [adA] [adC, adD]).2.1 (by decide) (by decide) (by decide),
   (C7_sort_desc_and_highlight_to_front 7 [adC, adA, adD, adB]
      2 adB [adA] [adC, adD]).2.2⟩

/-- **C9.** `errorToText` flattens each backend error shape to a single
string: a plain string is returned as is; an array of strings is joined
with newlines; a problem object with nonempty `title`, `detail` and an
`errors` map is flattened to title, detail and the `k: m1 | m2` field
lines joined with newlines; and the function returns a string for every
input (it is total — the JS `try`/`catch` fallback never has to fire in
the embedding). -/
theorem C9_errorToText_flattens_shapes
    (s : String) (m t : Option String) (ss : List String)
    (tl dt : String) (errs : List (String × FieldVal)) (e : JsError) :
    errorToText ⟨ErrData.str s, m, t⟩ = s ∧
    errorToText ⟨ErrData.arr (ss.map ErrData.str), m, t⟩ =
      String.intercalate "\n" ss ∧
    (tl ≠ "" → dt ≠ "" →
      String.intercalate "\n" (errs.map fieldLine) ≠ "" →
      errorToText ⟨ErrData.obj ⟨some tl, none, some dt, none, some errs, none⟩,
          m, t⟩ =
        String.intercalate "\n"
          [tl, dt, String.intercalate "\n" (errs.map fieldLine)]) ∧
    (∃ out, errorToText e = out) := by
  refine ⟨rfl, ?_, ?_, ⟨errorToText e, rfl⟩⟩
  · simp only [errorToText, List.map_map]
    congr 1
    show List.map (fun a : String => a) ss = ss
    exact List.map_id' ss
  · intro htl hdt herr
    simp [errorToText, truthyOr, joinTruthy, htl, hdt, herr, Option.or]

/-- **C9 witness.** The theorem applied at concrete error values of each
shape. -/
theorem C9_errorToText_witness :
    errorToText ⟨ErrData.str "boom", none, none⟩ = "boom" ∧
    errorToText ⟨ErrData.arr (["a", "b"].map ErrData.str), none, none⟩ =
      String.intercalate "\n" ["a", "b"] ∧
    errorToText ⟨ErrData.obj ⟨some "Invalid", none, some "Bad request", none,
        some [("Title", FieldVal.msgs ["required", "too short"])], none⟩,
        none, none⟩ =
      String.intercalate "\n" ["Invalid", "Bad request",
        String.intercalate "\n"
          ([("Title", FieldVal.msgs ["required", "too short"])].map fieldLine)] ∧
    (∃ out, errorToText ⟨ErrData.absent, none, none⟩ = out) :=
  ⟨(C9_errorToText_flattens_shapes "boom" none none ["a", "b"]
      "Invalid" "Bad request" [("Title", FieldVal.msgs ["required", "too short"])]
      ⟨ErrData.absent, none, none⟩).1,
   (C9_errorToText_flattens_shapes "boom" none none ["a", "b"]
      "Invalid" "Bad request" [("Title", FieldVal.msgs ["required", "too short"])]
      ⟨ErrData.absent, none, none⟩).2.1,
   (C9_errorToText_flattens_shapes "boom" none none ["a", "b"]
      "Invalid" "Bad request" [("Title", FieldVal.msgs ["required", "too short"])]
      ⟨ErrData.absent, none, none⟩).2.2.1
     (by decide) (by decide) (by decide),
   (C9_errorToText_flattens_shapes "boom" none none ["a", "b"]
      "Invalid" "Bad request" [("Title", FieldVal.msgs ["required", "too short"])]
      ⟨ErrData.absent, none, none⟩).2.2.2⟩

/-! ### String and digit-rendering helpers for the price formatters -/

theorem str_empty_append (s : String) : "" ++ s = s := by
  apply String.ext
  simp [String.data_append]

theorem intercalate_go_append (sep x : String) :
    ∀ (as : List String) (acc : String),
      String.intercalate.go acc sep (as ++ [x]) =
        String.intercalate.go acc sep as ++ sep ++ x := by
  intro as
  induction as with
  | nil => intro acc; rfl
  | cons b bs ih =>
    intro acc
    simp only [List.cons_append, String.intercalate.go]
    exact ih _

/-- Joining `ps ++ [x]` appends `sep ++ x` to the join of `ps` (or is
`x` when `ps` is empty). -/
theorem intercalate_concat (sep x : String) (ps : List String) :
    String.intercalate sep (ps ++ [x]) =
      if ps = [] then x else String.intercalate sep ps ++ sep ++ x := by
  cases ps with
  | nil => rfl
  | cons a as =>
    simp only [List.cons_append, String.intercalate, List.cons_ne_nil, if_neg]
    rw [intercalate_go_append]
    simp

theorem natDigitsRevAux_lt :
    ∀ fuel m, m ≤ fuel → ∀ d ∈ natDigitsRevAux fuel m, d < 10 := by
  intro fuel
  induction fuel with
  | zero =>
    intro m hm d hd
    have : m = 0 := Nat.le_zero.mp hm
    subst this
    simp [natDigitsRevAux] at hd
    omega
  | succ f ih =>
    intro m hm d hd
    rw [natDigitsRevAux] at hd
    by_cases h : m < 10
    · rw [if_pos h] at hd
      simp at hd
      omega
    · rw [if_neg h] at hd
      rcases List.mem_cons.mp hd with rfl | hd2
      · exact Nat.mod_lt _ (by omega)
      · have hlt : m / 10 ≤ f := by
          have : m / 10 < m := Nat.div_lt_self (by omega) (by omega)
          omega
        exact ih (m / 10) hlt d hd2

theorem natDigitsRev_lt (n : Nat) : ∀ d ∈ natDigitsRev n, d < 10 :=
  natDigitsRevAux_lt n n (Nat.le_refl n)

theorem sepEvery3_mem (l : List Char) (c : Char) (h : c ∈ sepEvery3 l) :
    c ∈ l ∨ c = '٬' := by
  match l with
  | [] => exact Or.inl h
  | [a] => exact Or.inl h
  | [a, b] => exact Or.inl h
  | [a, b, d] => exact Or.inl h
  | a :: b :: d :: e :: rest =>
    rw [sepEvery3] at h
    rcases List.mem_cons.mp h with rfl | h
    · exact Or.inl (by simp)
    rcases List.mem_cons.mp h with rfl | h
    · exact Or.inl (by simp)
    rcases List.mem_cons.mp h with rfl | h
    · exact Or.inl (by simp)
    rcases List.mem_cons.mp h with rfl | h
    · exact Or.inr rfl
    · rcases sepEvery3_mem (e :: rest) c h with h2 | h2
      · exact Or.inl (by simp at h2 ⊢; tauto)
      · exact Or.inr h2
  termination_by l.length

/-- Every character the Persian digit renderer emits lies at or above
U+066C — in particular it is never 'ت'. -/
theorem toFa_chars (n : Nat) : ∀ c ∈ (toFa n).data, 1644 ≤ c.toNat := by
  intro c hc
  unfold toFa at hc
  rw [show (String.mk (sepEvery3 ((natDigitsRev n).map faDigitChar)).reverse).data =
      (sepEvery3 ((natDigitsRev n).map faDigitChar)).reverse from rfl] at hc
  rw [List.mem_reverse] at hc
  rcases sepEvery3_mem _ _ hc with h | rfl
  · rcases List.mem_map.mp h with ⟨d, hd, rfl⟩
    have hd10 : d < 10 := natDigitsRev_lt n d hd
    unfold faDigitChar
    interval_cases d <;> decide
  · decide

theorem includes_append_right (needle x y : String)
    (hy : includesStr needle y = true) : includesStr needle (x ++ y) = true := by
  unfold includesStr at hy ⊢
  rw [decide_eq_true_iff] at hy ⊢
  rw [String.data_append]
  rcases hy with ⟨s, t, hst⟩
  exact ⟨x.data ++ s, t, by rw [← hst]; simp⟩

theorem includes_false_of_not_mem (needle hay : String) (c : Char)
    (hc : c ∈ needle.data) (h : c ∉ hay.data) :
    includesStr needle hay = false := by
  unfold includesStr
  rw [decide_eq_false_iff_not]
  intro hinf
  exact h (hinf.subset hc)

theorem toman_not_in_million (n : Nat) :
    includesStr "تومان" (toFa n ++ " میلیون") = false := by
  apply includes_false_of_not_mem _ _ 'ت' (by decide)
  rw [String.data_append]
  intro hmem
  rcases List.mem_append.mp hmem with h | h
  · have := toFa_chars n 'ت' h
    exact absurd this (by decide)
  · exact absurd h (by decide)

theorem toman_not_in_billion (n : Nat) :
    includesStr "تومان" (toFa n ++ " میلیارد") = false := by
  apply includes_false_of_not_mem _ _ 'ت' (by decide)
  rw [String.data_append]
  intro hmem
  rcases List.mem_append.mp hmem with h | h
  · have := toFa_chars n 'ت' h
    exact absurd this (by decide)
  · exact absurd h (by decide)

theorem toman_in_thousand (x : String) :
    includesStr "تومان" (x ++ " هزار تومان") = true :=
  includes_append_right _ x _ (by decide)

/-- The remainder after removing whole billions lies below 1000. -/
theorem pRem_lt (v : ℚ) : pRem v < 1000 := by
  unfold pRem pBillion
  have h := Int.lt_floor_add_one (v / 1000)
  have hv1000 : v / 1000 * 1000 = v := by field_simp
  push_cast at h
  nlinarith [h]

/-- The million part never needs a second carry. -/
theorem pMillion_lt (v : ℚ) : pMillion v < 1000 := by
  unfold pMillion
  rw [Int.floor_lt]
  have := pRem_lt v
  push_cast
  linarith

/-- **C10 counterexample.** At `v = 0.9996` million the thousand part
rounds up to 1000: `priceToText` renders it uncarried as
«۱٬۰۰۰ هزار تومان» while `formatFromMillionInput` carries it into the
million place, «۱ میلیون تومان» — the two formatters disagree, refuting
extensional equality on all positive inputs. -/
theorem C10_counterexample_carry_input :
    priceToText ((2499 : ℚ)/2500) = "۱٬۰۰۰ هزار تومان" ∧
    formatFromMillionInput ((2499 : ℚ)/2500) = "۱ میلیون تومان" ∧
    priceToText ((2499 : ℚ)/2500) ≠ formatFromMillionInput ((2499 : ℚ)/2500) := by
  have hb : pBillion ((2499:ℚ)/2500) = 0 := by
    unfold pBillion; norm_num [Int.floor_eq_iff]
  have hr : pRem ((2499:ℚ)/2500) = (2499:ℚ)/2500 := by
    unfold pRem; rw [hb]; norm_num
  have hm : pMillion ((2499:ℚ)/2500) = 0 := by
    unfold pMillion; rw [hr]; norm_num [Int.floor_eq_iff]
  have ht : pThousand ((2499:ℚ)/2500) = 1000 := by
    unfold pThousand jsRound; rw [hr, hm]; norm_num [Int.floor_eq_iff]
  have habs : |(2499:ℚ)/2500| = (2499:ℚ)/2500 := abs_of_pos (by norm_num)
  have h1 : priceToText ((2499:ℚ)/2500) = "۱٬۰۰۰ هزار تومان" := by
    simp only [priceToText, hb, hm, ht,
      if_neg (by norm_num : ¬ ((2499:ℚ)/2500 ≤ 0))]
    norm_num
    decide
  have h2 : formatFromMillionInput ((2499:ℚ)/2500) = "۱ میلیون تومان" := by
    simp only [formatFromMillionInput, habs, hb, hm, ht,
      if_neg (by norm_num : ¬ ((2499:ℚ)/2500 < 0))]
    norm_num
    decide
  exact ⟨h1, h2, by rw [h1, h2]; decide⟩

/-- **C10 amended.** The three price formatters agree on every positive
input whose decomposition needs no carry and is not all-zero: for
`0 < v` with rounded thousand part below 1000 and at least one nonzero
part, `formatFromMillionInput v = priceToText v`, and the two
`priceToText` copies are identical; they disagree exactly at carry
inputs such as `0.9996` (see the counterexample). -/
theorem C10_amended_formatters_agree_without_carry (v : ℚ) (h0 : 0 < v)
    (hc : pThousand v < 1000)
    (hz : 0 < pBillion v ∨ 0 < pMillion v ∨ 0 < pThousand v) :
    formatFromMillionInput v = priceToText v ∧
    priceToTextHome v = priceToText v := by
  refine ⟨?_, rfl⟩
  have habs : |v| = v := abs_of_pos h0
  have hmlt := pMillion_lt v
  simp only [formatFromMillionInput, habs, ge_iff_le,
    if_neg (not_le.mpr hc), if_neg (not_le.mpr hmlt),
    if_neg (not_lt.mpr h0.le), add_zero, zero_mul, sub_zero]
  simp only [priceToText, if_neg (not_le.mpr h0)]
  by_cases ht : pThousand v > 0
  · simp only [if_pos ht]
    have hne1 : ((if pBillion v > 0 then [toFa (pBillion v).toNat ++ " میلیارد"] else []) ++
        (if pMillion v > 0 then [toFa (pMillion v).toNat ++ " میلیون"] else []) ++
        [toFa (pThousand v).toNat ++ " هزار تومان"]) ≠ [] := by simp
    have hne2 : ((if pBillion v > 0 then [toFa (pBillion v).toNat ++ " میلیارد"] else []) ++
        (if pMillion v > 0 then [toFa (pMillion v).toNat ++ " میلیون"] else []) ++
        [toFa (pThousand v).toNat ++ " هزار"]) ≠ [] := by simp
    rw [if_neg hne1, if_neg hne2]
    rw [show ((if pBillion v > 0 then [toFa (pBillion v).toNat ++ " میلیارد"] else []) ++
        (if pMillion v > 0 then [toFa (pMillion v).toNat ++ " میلیون"] else []) ++
        [toFa (pThousand v).toNat ++ " هزار تومان"]) =
        ((if pBillion v > 0 then [toFa (pBillion v).toNat ++ " میلیارد"] else []) ++
        (if pMillion v > 0 then [toFa (pMillion v).toNat ++ " میلیون"] else [])) ++
        [toFa (pThousand v).toNat ++ " هزار تومان"] from rfl]
    rw [List.getLastD_concat]
    rw [if_pos (toman_in_thousand (toFa (pThousand v).toNat))]
    rw [str_empty_append]
    rw [intercalate_concat]
    rw [show ((if pBillion v > 0 then [toFa (pBillion v).toNat ++ " میلیارد"] else []) ++
        (if pMillion v > 0 then [toFa (pMillion v).toNat ++ " میلیون"] else []) ++
        [toFa (pThousand v).toNat ++ " هزار"]) =
        ((if pBillion v > 0 then [toFa (pBillion v).toNat ++ " میلیارد"] else []) ++
        (if pMillion v > 0 then [toFa (pMillion v).toNat ++ " میلیون"] else [])) ++
        [toFa (pThousand v).toNat ++ " هزار"] from rfl]
    rw [intercalate_concat]
    by_cases hP : ((if pBillion v > 0 then [toFa (pBillion v).toNat ++ " میلیارد"] else []) ++
        (if pMillion v > 0 then [toFa (pMillion v).toNat ++ " میلیون"] else [])) = []
    · rw [if_pos hP, if_pos hP]
      rw [String.append_assoc]
      rfl
    · rw [if_neg hP, if_neg hP]
      simp only [String.append_assoc]
      rfl
  · simp only [if_neg ht, List.append_nil]
    by_cases hm : pMillion v > 0
    · simp only [if_pos hm]
      have hne : ((if pBillion v > 0 then [toFa (pBillion v).toNat ++ " میلیارد"] else []) ++
          [toFa (pMillion v).toNat ++ " میلیون"]) ≠ [] := by simp
      rw [if_neg hne, if_neg hne]
      rw [List.getLastD_concat]
      have hfalse : ¬ (includesStr "تومان"
          (toFa (pMillion v).toNat ++ " میلیون") = true) := by
        rw [toman_not_in_million]
        exact Bool.false_ne_true
      rw [if_neg hfalse, str_empty_append]
    · simp only [if_neg hm]
      rcases hz with hb | hb | hb
      rotate_left
      · exact absurd hb hm
      · exact absurd hb ht
      simp only [if_pos hb, List.append_nil]
      have hne : ([toFa (pBillion v).toNat ++ " میلیارد"] : List String) ≠ [] := by simp
      rw [if_neg hne, if_neg hne]
      have hfalse : ¬ (includesStr "تومان"
          (([toFa (pBillion v).toNat ++ " میلیارد"] : List String).getLastD "") = true) := by
        rw [show (([toFa (pBillion v).toNat ++ " میلیارد"] : List String).getLastD "") =
            toFa (pBillion v).toNat ++ " میلیارد" from rfl]
        rw [toman_not_in_billion]
        exact Bool.false_ne_true
      rw [if_neg hfalse, str_empty_append]

/-- The decomposition of 120.5 million: no billions, 120 millions, a
500-thousand part — no carry. -/
theorem pParts_of_120_5 :
    pBillion ((241:ℚ)/2) = 0 ∧ pMillion ((241:ℚ)/2) = 120 ∧
    pThousand ((241:ℚ)/2) = 500 ∧ (0:ℚ) < (241:ℚ)/2 := by
  have hb : pBillion ((241:ℚ)/2) = 0 := by
    unfold pBillion; norm_num [Int.floor_eq_iff]
  have hr : pRem ((241:ℚ)/2) = (241:ℚ)/2 := by
    unfold pRem; rw [hb]; norm_num
  have hm : pMillion ((241:ℚ)/2) = 120 := by
    unfold pMillion; rw [hr]; norm_num [Int.floor_eq_iff]
  have ht : pThousand ((241:ℚ)/2) = 500 := by
    unfold pThousand jsRound; rw [hr, hm]; norm_num [Int.floor_eq_iff]
  exact ⟨hb, hm, ht, by norm_num⟩

/-- **C10 witness.** The amended claim at `v = 120.5` million, where the
decomposition (0 billion, 120 million, 500 thousand) needs no carry. -/
theorem C10_amended_witness :
    formatFromMillionInput ((241:ℚ)/2) = priceToText ((241:ℚ)/2) ∧
    priceToTextHome ((241:ℚ)/2) = priceToText ((241:ℚ)/2) :=
  C10_amended_formatters_agree_without_carry ((241:ℚ)/2)
    pParts_of_120_5.2.2.2
    (by rw [pParts_of_120_5.2.2.1]; decide)
    (Or.inr (Or.inl (by rw [pParts_of_120_5.2.1]; decide)))
